import Mathlib

/-!
Shallow embedding of the lexer and parser of a Rust front end for the Monkey
language (files token.rs, lexer.rs, ast.rs, parser.rs).

Modelling conventions:
* Rust `String` / `&str` values are modelled as lists of bytes (`List Nat`);
  the lexer indexes the input byte by byte exactly as the Rust code does.
* A Rust panic (a failing `unwrap`) is modelled as `Option.none` for lexer
  operations, and as `PResult.panicked` inside the parser.
* The parser's `while` loops and the recursion of the prefix-expression
  handler are modelled with explicit fuel; `PResult.fuelOut` marks fuel
  exhaustion, so "the result is `fuelOut` for every fuel" states that the
  Rust loop does not terminate.
* The lexer's internal `while` loops (skip_whitespace, read_identifier,
  read_number) always terminate because the loop predicates reject the byte 0
  that appears once the cursor passes the end of the input; they are defined
  through an auxiliary fueled loop `lexWhileAux` with a provably sufficient
  amount of fuel, and the theorem `lexWhile_eq` proves that the definition
  satisfies the defining equation of the Rust `while` loop.
-/

/-- Byte strings: Rust `String` contents as a list of byte values. -/
abbrev Bytes := List Nat

/-- The bytes of an ASCII string literal (each char's code point, which for
the ASCII literals used below equals its UTF-8 byte). -/
def strBytes (s : String) : Bytes := s.data.map Char.toNat

/-- token.rs: `enum TokenType`. -/
inductive TokenType where
  | Illegal
  | Eof
  | Ident
  | Int
  | Assign
  | Plus
  | Minus
  | Bang
  | Asterisk
  | Slash
  | Lt
  | Gt
  | Eq
  | NotEq
  | Comma
  | Semicolon
  | LParen
  | RParen
  | LBrace
  | RBrace
  | Function
  | Let
  | True
  | False
  | If
  | Else
  | Return
deriving DecidableEq

/-- token.rs: `struct Token { token_type, literal }`. -/
structure Token where
  token_type : TokenType
  literal : Bytes
deriving DecidableEq

/-- token.rs: `Token::new_from_str`. -/
def Token.new_from_str (token_type : TokenType) (s : Bytes) : Token :=
  { token_type := token_type, literal := s }

/-- token.rs: `Token::new_from_byte` calls `from_utf8(&[byte]).unwrap()`.
A single byte is valid UTF-8 exactly when it is below 0x80, so the unwrap
panics (modelled as `none`) for bytes 0x80 and above. -/
def Token.new_from_byte (token_type : TokenType) (byte : Nat) : Option Token :=
  if byte < 128 then some { token_type := token_type, literal := [byte] } else none

/-- token.rs: `Token::lookup_ident`. -/
def Token.lookup_ident (ident : Bytes) : TokenType :=
  if ident = strBytes "fn" then .Function
  else if ident = strBytes "let" then .Let
  else if ident = strBytes "true" then .True
  else if ident = strBytes "false" then .False
  else if ident = strBytes "if" then .If
  else if ident = strBytes "else" then .Else
  else if ident = strBytes "return" then .Return
  else .Ident

/-- lexer.rs: `struct Lexer`. -/
structure Lexer where
  input : Bytes
  position : Nat
  read_position : Nat
  ch : Nat
deriving DecidableEq

/-- lexer.rs: `Lexer::read_char`. -/
def Lexer.read_char (l : Lexer) : Lexer :=
  { l with
    ch := if l.input.length ≤ l.read_position then 0 else l.input.getD l.read_position 0,
    position := l.read_position,
    read_position := l.read_position + 1 }

/-- lexer.rs: `Lexer::new`. -/
def Lexer.new (input : Bytes) : Lexer :=
  Lexer.read_char { input := input, position := 0, read_position := 0, ch := 0 }

/-- lexer.rs: `Lexer::peek_char`. -/
def Lexer.peek_char (l : Lexer) : Nat :=
  if l.input.length ≤ l.read_position then 0 else l.input.getD l.read_position 0

/-- lexer.rs: `is_letter` (lowercase a-z, uppercase A-Z, underscore). -/
def is_letter (ch : Nat) : Bool :=
  decide ((97 ≤ ch ∧ ch ≤ 122) ∨ (65 ≤ ch ∧ ch ≤ 90) ∨ ch = 95)

/-- lexer.rs: `is_digit` (0 to 9). -/
def is_digit (ch : Nat) : Bool :=
  decide (48 ≤ ch ∧ ch ≤ 57)

/-- The whitespace test of lexer.rs `skip_whitespace`:
space, tab, newline, carriage return. -/
def is_whitespace_byte (ch : Nat) : Bool :=
  decide (ch = 32 ∨ ch = 9 ∨ ch = 10 ∨ ch = 13)

/-- Fueled form of the lexer's `while p(self.ch) { self.read_char(); }` loops. -/
def lexWhileAux (p : Nat → Bool) : Nat → Lexer → Lexer
  | 0, l => l
  | fuel + 1, l => if p l.ch then lexWhileAux p fuel l.read_char else l

/-- Fuel that provably suffices to run such a loop to completion whenever the
loop predicate rejects the byte 0 (see `lexWhile_eq`). -/
def loopFuel (p : Nat → Bool) (l : Lexer) : Nat :=
  (l.input.length + 1 - l.read_position) + (if p l.ch then 1 else 0)

/-- The lexer's `while p(self.ch) { self.read_char(); }` loop. -/
def lexWhile (p : Nat → Bool) (l : Lexer) : Lexer :=
  lexWhileAux p (loopFuel p l) l

/-- lexer.rs: `Lexer::skip_whitespace`. -/
def Lexer.skip_whitespace (l : Lexer) : Lexer :=
  lexWhile is_whitespace_byte l

/-- lexer.rs: `Lexer::read_identifier`: returns the slice
`input[position..self.position]` together with the lexer after the loop. -/
def Lexer.read_identifier (l : Lexer) : Bytes × Lexer :=
  let l' := lexWhile is_letter l
  ((l'.input.drop l.position).take (l'.position - l.position), l')

/-- lexer.rs: `Lexer::read_number`. -/
def Lexer.read_number (l : Lexer) : Bytes × Lexer :=
  let l' := lexWhile is_digit l
  ((l'.input.drop l.position).take (l'.position - l.position), l')

/-- The body of lexer.rs `Lexer::next_token` after the initial
`self.skip_whitespace()`: the match on `self.ch as char`, translated to a
comparison chain on the byte value (for a byte b, `b as char` is the code
point b, so each arm tests one byte value), followed by the trailing
`self.read_char()` of the non-early-return arms.
`none` models a panic inside `Token::new_from_byte`. -/
def Lexer.token_for (l : Lexer) : Option (Token × Lexer) :=
  if l.ch = 61 then
    if l.peek_char = 61 then
      let c := l.ch
      let l1 := l.read_char
      some (Token.new_from_str .Eq [c, l1.ch], l1.read_char)
    else
      (Token.new_from_byte .Assign l.ch).map (fun t => (t, l.read_char))
  else if l.ch = 33 then
    if l.peek_char = 61 then
      let c := l.ch
      let l1 := l.read_char
      some (Token.new_from_str .NotEq [c, l1.ch], l1.read_char)
    else
      (Token.new_from_byte .Bang l.ch).map (fun t => (t, l.read_char))
  else if l.ch = 59 then (Token.new_from_byte .Semicolon l.ch).map (fun t => (t, l.read_char))
  else if l.ch = 40 then (Token.new_from_byte .LParen l.ch).map (fun t => (t, l.read_char))
  else if l.ch = 41 then (Token.new_from_byte .RParen l.ch).map (fun t => (t, l.read_char))
  else if l.ch = 44 then (Token.new_from_byte .Comma l.ch).map (fun t => (t, l.read_char))
  else if l.ch = 43 then (Token.new_from_byte .Plus l.ch).map (fun t => (t, l.read_char))
  else if l.ch = 123 then (Token.new_from_byte .LBrace l.ch).map (fun t => (t, l.read_char))
  else if l.ch = 125 then (Token.new_from_byte .RBrace l.ch).map (fun t => (t, l.read_char))
  else if l.ch = 45 then (Token.new_from_byte .Minus l.ch).map (fun t => (t, l.read_char))
  else if l.ch = 47 then (Token.new_from_byte .Slash l.ch).map (fun t => (t, l.read_char))
  else if l.ch = 42 then (Token.new_from_byte .Asterisk l.ch).map (fun t => (t, l.read_char))
  else if l.ch = 60 then (Token.new_from_byte .Lt l.ch).map (fun t => (t, l.read_char))
  else if l.ch = 62 then (Token.new_from_byte .Gt l.ch).map (fun t => (t, l.read_char))
  else if l.ch = 0 then (Token.new_from_byte .Eof 0).map (fun t => (t, l.read_char))
  else if is_letter l.ch then
    let r := l.read_identifier
    some (Token.new_from_str (Token.lookup_ident r.1) r.1, r.2)
  else if is_digit l.ch then
    let r := l.read_number
    some (Token.new_from_str .Int r.1, r.2)
  else
    (Token.new_from_byte .Illegal l.ch).map (fun t => (t, l.read_char))

/-- lexer.rs: `Lexer::next_token`: skip whitespace, then classify the
current byte (`token_for`). -/
def Lexer.next_token (l0 : Lexer) : Option (Token × Lexer) :=
  l0.skip_whitespace.token_for

/-- The token produced by the (n+1)-st call to `next_token` from state `l`
(`none` if some call panics). -/
def nthToken (l : Lexer) : Nat → Option Token
  | 0 => l.next_token.map Prod.fst
  | n + 1 =>
    match l.next_token with
    | none => none
    | some (_, l') => nthToken l' n

/-- The lexer state invariant: the read position is one past the current
position and the cached byte `ch` is the input byte at the current position
(0 past the end).  It holds after construction and after every `read_char`. -/
def WF (l : Lexer) : Prop :=
  l.read_position = l.position + 1 ∧ l.ch = l.input.getD l.position 0

instance (l : Lexer) : Decidable (WF l) := by unfold WF; infer_instance

/-- ast.rs: `enum Expression`.  The field structs IdentifierStruct
(token, value), IntegerLiteralStruct (token, value) and
PrefixExpressionStruct (token, operator, right) are flattened into the
constructors' arguments, in field order. -/
inductive Expression where
  | Identifier : Token → Bytes → Expression
  | IntegerLiteral : Token → Option Int → Expression
  | PrefixExpression : Token → Bytes → Expression → Expression
deriving DecidableEq

/-- ast.rs: `enum Statement`.  LetStatement (token, name, value),
ReturnStatement (token, value) and ExpressionStatement (token, expression)
are flattened into the constructors' arguments, in field order. -/
inductive Statement where
  | Let : Token → Expression → Option Expression → Statement
  | Return : Token → Option Expression → Statement
  | Expression : Token → Option Expression → Statement
deriving DecidableEq

/-- ast.rs: `struct Program`. -/
structure Program where
  statements : List Statement
deriving DecidableEq

/-- parser.rs: operator precedence constants. -/
def LOWEST : Int := 1
def EQUALS : Int := 2
def LESSGREATER : Int := 3
def SUM : Int := 4
def PRODUCT : Int := 5
/-- parser.rs calls this constant PREFIX. -/
def PREFIX_PRECEDENCE : Int := 6
def CALL : Int := 7

/-- parser.rs: `struct Parser`.  A ParserError is its message string. -/
structure Parser where
  l : Lexer
  current_token : Token
  peek_token : Token
  errors : List Bytes
deriving DecidableEq

/-- Result of a parser computation: a value, a Rust panic, or fuel
exhaustion of the fueled model of a loop / recursion. -/
inductive PResult (α : Type) where
  | ok : α → PResult α
  | panicked : PResult α
  | fuelOut : PResult α
deriving DecidableEq

def PResult.isOk {α : Type} : PResult α → Bool
  | .ok _ => true
  | _ => false

/-- parser.rs: `Parser::new` (pulls the first two tokens). -/
def Parser.new (l : Lexer) : Option Parser :=
  match l.next_token with
  | none => none
  | some (current_token, l1) =>
    match l1.next_token with
    | none => none
    | some (peek_token, l2) =>
      some { l := l2, current_token := current_token, peek_token := peek_token, errors := [] }

/-- The Debug ({:?}) rendering of a TokenType: the variant name. -/
def TokenType.debugBytes : TokenType → Bytes
  | .Illegal => strBytes "Illegal"
  | .Eof => strBytes "Eof"
  | .Ident => strBytes "Ident"
  | .Int => strBytes "Int"
  | .Assign => strBytes "Assign"
  | .Plus => strBytes "Plus"
  | .Minus => strBytes "Minus"
  | .Bang => strBytes "Bang"
  | .Asterisk => strBytes "Asterisk"
  | .Slash => strBytes "Slash"
  | .Lt => strBytes "Lt"
  | .Gt => strBytes "Gt"
  | .Eq => strBytes "Eq"
  | .NotEq => strBytes "NotEq"
  | .Comma => strBytes "Comma"
  | .Semicolon => strBytes "Semicolon"
  | .LParen => strBytes "LParen"
  | .RParen => strBytes "RParen"
  | .LBrace => strBytes "LBrace"
  | .RBrace => strBytes "RBrace"
  | .Function => strBytes "Function"
  | .Let => strBytes "Let"
  | .True => strBytes "True"
  | .False => strBytes "False"
  | .If => strBytes "If"
  | .Else => strBytes "Else"
  | .Return => strBytes "Return"

/-- parser.rs: `Parser::peek_error` (message of
`format("Expected next token to be {:?}, got {:?} instead.", t, peek)`). -/
def Parser.peek_error (p : Parser) (t : TokenType) : Parser :=
  { p with errors := p.errors ++
      [strBytes "Expected next token to be " ++ t.debugBytes ++
       strBytes ", got " ++ p.peek_token.token_type.debugBytes ++ strBytes " instead."] }

/-- parser.rs: `Parser::next_token` (advance the token window; `none` models
a panic inside the lexer). -/
def Parser.next_token (p : Parser) : Option Parser :=
  match p.l.next_token with
  | none => none
  | some (tok, l') =>
    some { p with l := l', current_token := p.peek_token, peek_token := tok }

/-- parser.rs: `Parser::cur_token_is`. -/
def Parser.cur_token_is (p : Parser) (t : TokenType) : Bool :=
  decide (p.current_token.token_type = t)

/-- parser.rs: `Parser::peek_token_is`. -/
def Parser.peek_token_is (p : Parser) (t : TokenType) : Bool :=
  decide (p.peek_token.token_type = t)

/-- parser.rs: `Parser::expect_peek`: on a match advance (which may panic)
and return true, otherwise record a peek error and return false. -/
def Parser.expect_peek (p : Parser) (t : TokenType) : Option (Bool × Parser) :=
  if p.peek_token_is t then
    p.next_token.map (fun p' => (true, p'))
  else
    some (false, p.peek_error t)

/-- parser.rs: `Parser::parse_identifier`. -/
def Parser.parse_identifier (p : Parser) : Expression :=
  Expression.Identifier p.current_token p.current_token.literal

/-- Rust's `str::parse::<i64>` (core's `i64::from_str`): an optional sign
followed by at least one ASCII digit, rejecting values outside the i64
range.  The literals fed to it by this parser are plain digit runs. -/
def parse_i64 (s : Bytes) : Option Int :=
  match s with
  | [] => none
  | b :: rest =>
    let neg := b = 45
    let digits := if b = 45 ∨ b = 43 then rest else s
    if digits = [] then none
    else if digits.all is_digit then
      let v : Int := (digits.foldl (fun acc d => acc * 10 + (d - 48)) 0 : Nat)
      if neg then
        if v ≤ 9223372036854775808 then some (-v) else none
      else
        if v ≤ 9223372036854775807 then some v else none
    else none

/-- parser.rs: `Parser::parse_integer_literal`: parse the current literal
as an i64; on failure push a "Could not parse ... as integer" error and
build the node with a `none` value. -/
def Parser.parse_integer_literal (p : Parser) : Expression × Parser :=
  match parse_i64 p.current_token.literal with
  | some val => (Expression.IntegerLiteral p.current_token (some val), p)
  | none =>
    (Expression.IntegerLiteral p.current_token none,
     { p with errors := p.errors ++
        [strBytes "Could not parse " ++ p.current_token.literal ++ strBytes " as integer"] })

/-- parser.rs: `Parser::no_prefix_parse_fn_error`. -/
def Parser.no_prefix_parse_fn_error (p : Parser) (t : TokenType) : Parser :=
  { p with errors := p.errors ++
      [strBytes "No prefix parse function found for " ++ t.debugBytes] }

/-- parser.rs: `Parser::parse_expression`, with `Parser::prefix_parse_fns`
and `Parser::parse_prefix_expression` inlined (they are mutually recursive
with parse_expression in the source; the recursion is fueled, one unit per
entry into parse_prefix_expression).  The Bang and Minus arms are the two
`prefix_parse_fns` arms that call `parse_prefix_expression`, whose
`self.parse_expression(PREFIX).unwrap()` panics (`.panicked`) when the
recursive parse produces no expression. -/
def parse_expression : Nat → Parser → Int → PResult (Option Expression × Parser)
  | fuel, p, _precedence =>
    let left_exp : PResult (Option Expression × Parser) :=
      match p.current_token.token_type with
      | .Ident => .ok (some p.parse_identifier, p)
      | .Int =>
        let r := p.parse_integer_literal
        .ok (some r.1, r.2)
      | .Bang =>
        match fuel with
        | 0 => .fuelOut
        | f + 1 =>
          match p.next_token with
          | none => .panicked
          | some p1 =>
            match parse_expression f p1 PREFIX_PRECEDENCE with
            | .panicked => .panicked
            | .fuelOut => .fuelOut
            | .ok (none, _) => .panicked
            | .ok (some right, p2) =>
              .ok (some (Expression.PrefixExpression p.current_token p.current_token.literal right), p2)
      | .Minus =>
        match fuel with
        | 0 => .fuelOut
        | f + 1 =>
          match p.next_token with
          | none => .panicked
          | some p1 =>
            match parse_expression f p1 PREFIX_PRECEDENCE with
            | .panicked => .panicked
            | .fuelOut => .fuelOut
            | .ok (none, _) => .panicked
            | .ok (some right, p2) =>
              .ok (some (Expression.PrefixExpression p.current_token p.current_token.literal right), p2)
      | _ => .ok (none, p)
    match left_exp with
    | .panicked => .panicked
    | .fuelOut => .fuelOut
    | .ok (none, p') => .ok (none, p'.no_prefix_parse_fn_error p.current_token.token_type)
    | .ok (some e, p') => .ok (some e, p')

/-- The `while !self.cur_token_is(TokenType::Semicolon) { self.next_token(); }`
loop shared by parse_let_statement and parse_return_statement, fueled. -/
def skip_to_semicolon : Nat → Parser → PResult Parser
  | 0, p => if p.cur_token_is .Semicolon then .ok p else .fuelOut
  | fuel + 1, p =>
    if p.cur_token_is .Semicolon then .ok p
    else
      match p.next_token with
      | none => .panicked
      | some p' => skip_to_semicolon fuel p'

/-- parser.rs: `Parser::parse_let_statement`. -/
def Parser.parse_let_statement (fuel : Nat) (p : Parser) : PResult (Option Statement × Parser) :=
  let let_token := p.current_token
  match p.expect_peek .Ident with
  | none => .panicked
  | some (false, p1) => .ok (none, p1)
  | some (true, p1) =>
    let statement_name := Expression.Identifier p1.current_token p1.current_token.literal
    match p1.expect_peek .Assign with
    | none => .panicked
    | some (false, p2) => .ok (none, p2)
    | some (true, p2) =>
      match skip_to_semicolon fuel p2 with
      | .panicked => .panicked
      | .fuelOut => .fuelOut
      | .ok p3 => .ok (some (Statement.Let let_token statement_name none), p3)

/-- parser.rs: `Parser::parse_return_statement`. -/
def Parser.parse_return_statement (fuel : Nat) (p : Parser) : PResult (Option Statement × Parser) :=
  let return_token := p.current_token
  match p.next_token with
  | none => .panicked
  | some p1 =>
    match skip_to_semicolon fuel p1 with
    | .panicked => .panicked
    | .fuelOut => .fuelOut
    | .ok p2 => .ok (some (Statement.Return return_token none), p2)

/-- parser.rs: `Parser::parse_expression_statement`.  Note that
`ExpressionStatement::new(expression_token, Some(expression)?)` always
succeeds: `Some(expression)?` unwraps to the (possibly None) expression, so
a statement is produced even when parse_expression yielded nothing. -/
def Parser.parse_expression_statement (fuel : Nat) (p : Parser) :
    PResult (Option Statement × Parser) :=
  let expression_token := p.current_token
  match parse_expression fuel p LOWEST with
  | .panicked => .panicked
  | .fuelOut => .fuelOut
  | .ok (expression, p1) =>
    match (if p1.peek_token_is .Semicolon then p1.next_token else some p1) with
    | none => .panicked
    | some p2 => .ok (some (Statement.Expression expression_token expression), p2)

/-- parser.rs: `Parser::parse_statement`. -/
def Parser.parse_statement (fuel : Nat) (p : Parser) : PResult (Option Statement × Parser) :=
  match p.current_token.token_type with
  | .Let => p.parse_let_statement fuel
  | .Return => p.parse_return_statement fuel
  | _ => p.parse_expression_statement fuel

/-- parser.rs: the `while !self.cur_token_is(TokenType::Eof)` loop of
`Parser::parse_program`, fueled (one unit per iteration). -/
def parse_program_loop : Nat → Parser → List Statement → PResult (Program × Parser)
  | 0, p, acc => if p.cur_token_is .Eof then .ok (⟨acc⟩, p) else .fuelOut
  | fuel + 1, p, acc =>
    if p.cur_token_is .Eof then .ok (⟨acc⟩, p)
    else
      match p.parse_statement fuel with
      | .panicked => .panicked
      | .fuelOut => .fuelOut
      | .ok (statement, p1) =>
        match p1.next_token with
        | none => .panicked
        | some p2 =>
          parse_program_loop fuel p2
            (match statement with
             | some stmt => acc ++ [stmt]
             | none => acc)

/-- parser.rs: `Parser::parse_program` (returning the final parser as well,
so that the accumulated errors are observable). -/
def Parser.parse_program (fuel : Nat) (p : Parser) : PResult (Program × Parser) :=
  parse_program_loop fuel p []

/-- Build a Parser over a fresh Lexer for `input` and run parse_program:
the API sequence `Parser::new(Lexer::new(input)).parse_program()`. -/
def parseSource (fuel : Nat) (input : Bytes) : PResult (Program × Parser) :=
  match Parser.new (Lexer.new input) with
  | none => .panicked
  | some p => p.parse_program fuel

/-- The statement list of a completed parse. -/
def parsedStmts (r : PResult (Program × Parser)) : Option (List Statement) :=
  match r with
  | .ok (prog, _) => some prog.statements
  | _ => none

/-- The error list of a completed parse. -/
def parsedErrors (r : PResult (Program × Parser)) : Option (List Bytes) :=
  match r with
  | .ok (_, p) => some p.errors
  | _ => none

/-- The first recorded error of a completed parse. -/
def firstParseError (r : PResult (Program × Parser)) : Option Bytes :=
  match r with
  | .ok (_, p) => p.errors.head?
  | _ => none

/-! ### Properties of the lexer's fueled while loops -/

theorem lexWhileAux_stop (p : Nat → Bool) (l : Lexer) (h : p l.ch = false) :
    ∀ fuel, lexWhileAux p fuel l = l := by
  intro fuel
  cases fuel with
  | zero => rfl
  | succ f => simp [lexWhileAux, h]

theorem loopFuel_read_char (p : Nat → Bool) (hp : p 0 = false) (l : Lexer)
    (hch : p l.ch = true) : loopFuel p l.read_char + 1 ≤ loopFuel p l := by
  have hrp : l.read_char.read_position = l.read_position + 1 := rfl
  have hin : l.read_char.input = l.input := rfl
  have hR : loopFuel p l = (l.input.length + 1 - l.read_position) + 1 := by
    unfold loopFuel; rw [hch]; simp
  have hL : loopFuel p l.read_char ≤ (l.input.length + 1 - (l.read_position + 1)) + 1 := by
    unfold loopFuel; rw [hrp, hin]; split <;> omega
  by_cases h : l.input.length ≤ l.read_position
  · have hch0 : l.read_char.ch = 0 := by simp [Lexer.read_char, h]
    have hL0 : loopFuel p l.read_char = l.input.length + 1 - (l.read_position + 1) := by
      unfold loopFuel; rw [hrp, hin, hch0, hp]; simp
    omega
  · omega

theorem lexWhileAux_congr (p : Nat → Bool) (hp : p 0 = false) :
    ∀ f1 f2 l, loopFuel p l ≤ f1 → loopFuel p l ≤ f2 →
      lexWhileAux p f1 l = lexWhileAux p f2 l := by
  intro f1
  induction f1 with
  | zero =>
    intro f2 l h1 h2
    have hch : p l.ch = false := by
      rcases hb : p l.ch
      · rfl
      · exfalso; unfold loopFuel at h1; rw [hb] at h1; simp at h1
    rw [lexWhileAux_stop p l hch, lexWhileAux_stop p l hch]
  | succ f ih =>
    intro f2 l h1 h2
    by_cases hch : p l.ch = true
    · have hpos : 1 ≤ loopFuel p l := by
        unfold loopFuel; rw [hch]; simp
      cases f2 with
      | zero => omega
      | succ k =>
        have hstep := loopFuel_read_char p hp l hch
        simp only [lexWhileAux, hch, if_true]
        exact ih k l.read_char (by omega) (by omega)
    · have hch' : p l.ch = false := by rcases hb : p l.ch; rfl; exact absurd hb hch
      rw [lexWhileAux_stop p l hch', lexWhileAux_stop p l hch']

/-- The fueled definition of `lexWhile` satisfies the defining equation of
the source's `while p(self.ch) { self.read_char(); }` loop, whenever the
predicate rejects the end-of-input sentinel byte (as all three of the
lexer's predicates do). -/
theorem lexWhile_eq (p : Nat → Bool) (hp : p 0 = false) (l : Lexer) :
    lexWhile p l = if p l.ch then lexWhile p l.read_char else l := by
  by_cases hch : p l.ch = true
  · rw [if_pos hch]
    unfold lexWhile
    have h1 : loopFuel p l = (l.input.length + 1 - l.read_position) + 1 := by
      unfold loopFuel; rw [hch]; simp
    have h2 := loopFuel_read_char p hp l hch
    rw [h1]
    simp only [lexWhileAux, hch, if_true]
    exact lexWhileAux_congr p hp _ _ _ (by omega) (le_refl _)
  · have hch' : p l.ch = false := by rcases hb : p l.ch; rfl; exact absurd hb hch
    rw [if_neg hch]
    exact lexWhileAux_stop p l hch' _

theorem lexWhileAux_input (p : Nat → Bool) :
    ∀ fuel l, (lexWhileAux p fuel l).input = l.input := by
  intro fuel
  induction fuel with
  | zero => intro l; rfl
  | succ f ih =>
    intro l
    unfold lexWhileAux
    split
    · rw [ih]; rfl
    · rfl

theorem lexWhile_input (p : Nat → Bool) (l : Lexer) :
    (lexWhile p l).input = l.input :=
  lexWhileAux_input p _ l

theorem WF_read_char (l : Lexer) : WF l.read_char := by
  constructor
  · rfl
  · show (if l.input.length ≤ l.read_position then 0 else l.input.getD l.read_position 0)
      = l.input.getD l.read_position 0
    by_cases h : l.input.length ≤ l.read_position
    · rw [if_pos h, List.getD_eq_default _ _ h]
    · rw [if_neg h]

theorem WF_new (input : Bytes) : WF (Lexer.new input) := WF_read_char _

theorem lexWhileAux_WF (p : Nat → Bool) :
    ∀ fuel l, WF l → WF (lexWhileAux p fuel l) := by
  intro fuel
  induction fuel with
  | zero => intro l h; exact h
  | succ f ih =>
    intro l h
    unfold lexWhileAux
    split
    · exact ih l.read_char (WF_read_char l)
    · exact h

theorem lexWhile_WF (p : Nat → Bool) (l : Lexer) (h : WF l) : WF (lexWhile p l) :=
  lexWhileAux_WF p _ l h

/-- Running a lexer loop from a well-formed state advances the position
over exactly the maximal run of bytes satisfying the predicate. -/
theorem lexWhile_position (p : Nat → Bool) (hp : p 0 = false) :
    ∀ n l, WF l → l.input.length - l.position ≤ n →
      (lexWhile p l).position =
        l.position + ((l.input.drop l.position).takeWhile p).length := by
  intro n
  induction n with
  | zero =>
    intro l hwf hle
    have hpos : l.input.length ≤ l.position := by omega
    have hch : l.ch = 0 := by rw [hwf.2, List.getD_eq_default _ _ hpos]
    have hstop : p l.ch = false := by rw [hch]; exact hp
    rw [lexWhile_eq p hp, hstop]
    simp [List.drop_eq_nil_of_le hpos]
  | succ n ih =>
    intro l hwf hle
    by_cases hch : p l.ch = true
    · have hlt : l.position < l.input.length := by
        by_contra hc
        have hpos : l.input.length ≤ l.position := by omega
        rw [hwf.2, List.getD_eq_default _ _ hpos, hp] at hch
        exact absurd hch (by simp)
      have hchval : l.ch = l.input[l.position] := by
        rw [hwf.2]; exact List.getD_eq_getElem _ _ hlt
      rw [lexWhile_eq p hp, if_pos hch]
      have hpos' : l.read_char.position = l.position + 1 := hwf.1
      have hin : l.read_char.input = l.input := rfl
      rw [ih l.read_char (WF_read_char l) (by rw [hin, hpos']; omega)]
      rw [hin, hpos']
      rw [List.drop_eq_getElem_cons hlt, List.takeWhile_cons, ← hchval, hch]
      simp
      omega
    · have hch' : p l.ch = false := by rcases hb : p l.ch; rfl; exact absurd hb hch
      rw [lexWhile_eq p hp, hch']
      rcases Nat.lt_or_ge l.position l.input.length with hlt | hge
      · have hchval : l.ch = l.input[l.position] := by
          rw [hwf.2]; exact List.getD_eq_getElem _ _ hlt
        rw [List.drop_eq_getElem_cons hlt, List.takeWhile_cons, ← hchval, hch']
        simp
      · rw [List.drop_eq_nil_of_le hge]
        simp

/-- From a well-formed state, `read_identifier` returns exactly the maximal
run of letter/underscore bytes starting at the current position. -/
theorem read_identifier_spec (l : Lexer) (hwf : WF l) :
    l.read_identifier = ((l.input.drop l.position).takeWhile is_letter, lexWhile is_letter l) := by
  unfold Lexer.read_identifier
  have hin : (lexWhile is_letter l).input = l.input := lexWhile_input _ _
  have hpos := lexWhile_position is_letter (by decide) (l.input.length - l.position) l hwf
    (le_refl _)
  simp only [hin, hpos]
  have harith : l.position + ((l.input.drop l.position).takeWhile is_letter).length
      - l.position = ((l.input.drop l.position).takeWhile is_letter).length := by omega
  rw [harith]
  rw [← (List.prefix_iff_eq_take.mp (List.takeWhile_prefix _))]

theorem skip_whitespace_id (l : Lexer) (h : is_whitespace_byte l.ch = false) :
    l.skip_whitespace = l := by
  unfold Lexer.skip_whitespace lexWhile
  exact lexWhileAux_stop _ _ h _

/-- At end of input (cursor past the input, sentinel byte loaded), a call to
`next_token` returns the Eof token with literal `[0]` (the one-byte string
containing the NUL character) and the successor state is again at end of
input. -/
theorem next_token_atEnd (l : Lexer) (h1 : l.input.length ≤ l.read_position) (h2 : l.ch = 0) :
    l.next_token = some (⟨.Eof, [0]⟩, l.read_char) ∧
      l.read_char.input.length ≤ l.read_char.read_position ∧ l.read_char.ch = 0 := by
  refine ⟨?_, ?_, by simp [Lexer.read_char, h1]⟩
  · have hskip : l.skip_whitespace = l := skip_whitespace_id l (by rw [h2]; rfl)
    unfold Lexer.next_token
    rw [hskip]
    simp [Lexer.token_for, h2, Token.new_from_byte]
  · show l.input.length ≤ l.read_position + 1
    omega

/-- Every call made at or after end of input yields the Eof token `[0]`. -/
theorem nthToken_atEnd (n : Nat) : ∀ l : Lexer,
    l.input.length ≤ l.read_position → l.ch = 0 →
    nthToken l n = some ⟨.Eof, [0]⟩ := by
  induction n with
  | zero =>
    intro l h1 h2
    unfold nthToken
    rw [(next_token_atEnd l h1 h2).1]
    rfl
  | succ n ih =>
    intro l h1 h2
    obtain ⟨hnt, h1', h2'⟩ := next_token_atEnd l h1 h2
    unfold nthToken
    rw [hnt]
    exact ih l.read_char h1' h2'

/-- A well-formed lexer over all-ASCII input has an ASCII (or sentinel)
current byte. -/
theorem WF_ch_lt (l : Lexer) (hwf : WF l) (hascii : ∀ b ∈ l.input, b < 128) :
    l.ch < 128 := by
  rw [hwf.2]
  rcases Nat.lt_or_ge l.position l.input.length with hlt | hge
  · rw [List.getD_eq_getElem _ _ hlt]
    exact hascii _ (List.getElem_mem hlt)
  · rw [List.getD_eq_default _ _ hge]
    omega

theorem new_from_byte_map_isSome {α : Type} (t : TokenType) (b : Nat) (hb : b < 128)
    (f : Token → α) : ((Token.new_from_byte t b).map f).isSome = true := by
  simp [Token.new_from_byte, hb]

/-- From a state with an ASCII (or sentinel) current byte, the lexer's byte
classification cannot panic: it always yields a token. -/
theorem token_for_isSome (s : Lexer) (hch : s.ch < 128) :
    s.token_for.isSome = true := by
  simp only [Lexer.token_for]
  by_cases h61 : s.ch = 61
  · rw [if_pos h61]
    by_cases h61p : s.peek_char = 61
    · rw [if_pos h61p]; rfl
    · rw [if_neg h61p]
      exact new_from_byte_map_isSome _ _ (by omega) _
  · rw [if_neg h61]
    by_cases h33 : s.ch = 33
    · rw [if_pos h33]
      by_cases h33p : s.peek_char = 61
      · rw [if_pos h33p]; rfl
      · rw [if_neg h33p]
        exact new_from_byte_map_isSome _ _ (by omega) _
    · rw [if_neg h33]
      by_cases hc0 : s.ch = 59
      · rw [if_pos hc0]
        exact new_from_byte_map_isSome _ _ (by omega) _
      · rw [if_neg hc0]
        by_cases hc1 : s.ch = 40
        · rw [if_pos hc1]
          exact new_from_byte_map_isSome _ _ (by omega) _
        · rw [if_neg hc1]
          by_cases hc2 : s.ch = 41
          · rw [if_pos hc2]
            exact new_from_byte_map_isSome _ _ (by omega) _
          · rw [if_neg hc2]
            by_cases hc3 : s.ch = 44
            · rw [if_pos hc3]
              exact new_from_byte_map_isSome _ _ (by omega) _
            · rw [if_neg hc3]
              by_cases hc4 : s.ch = 43
              · rw [if_pos hc4]
                exact new_from_byte_map_isSome _ _ (by omega) _
              · rw [if_neg hc4]
                by_cases hc5 : s.ch = 123
                · rw [if_pos hc5]
                  exact new_from_byte_map_isSome _ _ (by omega) _
                · rw [if_neg hc5]
                  by_cases hc6 : s.ch = 125
                  · rw [if_pos hc6]
                    exact new_from_byte_map_isSome _ _ (by omega) _
                  · rw [if_neg hc6]
                    by_cases hc7 : s.ch = 45
                    · rw [if_pos hc7]
                      exact new_from_byte_map_isSome _ _ (by omega) _
                    · rw [if_neg hc7]
                      by_cases hc8 : s.ch = 47
                      · rw [if_pos hc8]
                        exact new_from_byte_map_isSome _ _ (by omega) _
                      · rw [if_neg hc8]
                        by_cases hc9 : s.ch = 42
                        · rw [if_pos hc9]
                          exact new_from_byte_map_isSome _ _ (by omega) _
                        · rw [if_neg hc9]
                          by_cases hc10 : s.ch = 60
                          · rw [if_pos hc10]
                            exact new_from_byte_map_isSome _ _ (by omega) _
                          · rw [if_neg hc10]
                            by_cases hc11 : s.ch = 62
                            · rw [if_pos hc11]
                              exact new_from_byte_map_isSome _ _ (by omega) _
                            · rw [if_neg hc11]
                              by_cases hc12 : s.ch = 0
                              · rw [if_pos hc12]
                                exact new_from_byte_map_isSome _ _ (by omega) _
                              · rw [if_neg hc12]
                                by_cases hl0 : is_letter s.ch = true
                                · rw [if_pos hl0]; rfl
                                · rw [if_neg hl0]
                                  by_cases hl1 : is_digit s.ch = true
                                  · rw [if_pos hl1]; rfl
                                  · rw [if_neg hl1]
                                    exact new_from_byte_map_isSome _ _ hch _

/-- From a state whose current byte after whitespace skipping is ASCII,
`next_token` cannot panic. -/
theorem next_token_isSome (l : Lexer) (hch : l.skip_whitespace.ch < 128) :
    l.next_token.isSome = true :=
  token_for_isSome l.skip_whitespace hch

/-! ### The statement-body skip loop on an exhausted token stream -/

/-- Once the parser's token window holds Eof in both slots and its lexer is
at end of input, the `while !cur_token_is(Semicolon)` loop of
parse_let_statement / parse_return_statement never finishes, whatever the
fuel: the lexer keeps producing Eof tokens and the loop condition never
becomes true. -/
theorem skip_stuck (n : Nat) : ∀ p : Parser,
    p.current_token.token_type = .Eof →
    p.peek_token = ⟨.Eof, [0]⟩ →
    p.l.input.length ≤ p.l.read_position →
    p.l.ch = 0 →
    skip_to_semicolon n p = .fuelOut := by
  induction n with
  | zero =>
    intro p h1 h2 h3 h4
    unfold skip_to_semicolon
    rw [show p.cur_token_is .Semicolon = false from by simp [Parser.cur_token_is, h1]]
    rfl
  | succ n ih =>
    intro p h1 h2 h3 h4
    obtain ⟨hnt, h3', h4'⟩ := next_token_atEnd p.l h3 h4
    unfold skip_to_semicolon
    rw [show p.cur_token_is .Semicolon = false from by simp [Parser.cur_token_is, h1]]
    have hpn : p.next_token =
        some { p with
                 l := p.l.read_char
                 current_token := p.peek_token
                 peek_token := ⟨.Eof, [0]⟩ } := by
      unfold Parser.next_token
      rw [hnt]
    simp only [Bool.false_eq_true, if_false, hpn]
    refine ih _ ?_ rfl h3' h4'
    show p.peek_token.token_type = .Eof
    rw [h2]

theorem skip_step (f : Nat) (p p' : Parser) (hcur : p.cur_token_is .Semicolon = false)
    (hnext : p.next_token = some p') :
    skip_to_semicolon (f + 1) p = skip_to_semicolon f p' := by
  conv_lhs => rw [skip_to_semicolon]
  rw [hcur]
  simp only [Bool.false_eq_true, if_false, hnext]

/-- The parser state produced by `Parser::new` on the source "let x = 5"
(no terminating semicolon). -/
def C2_p0 : Parser :=
  { l := { input := [108,101,116,32,120,32,61,32,53], position := 5, read_position := 6, ch := 32 },
    current_token := ⟨.Let, [108,101,116]⟩,
    peek_token := ⟨.Ident, [120]⟩,
    errors := [] }

/-- ... after `expect_peek(Ident)`. -/
def C2_p1 : Parser :=
  { l := { input := [108,101,116,32,120,32,61,32,53], position := 7, read_position := 8, ch := 32 },
    current_token := ⟨.Ident, [120]⟩,
    peek_token := ⟨.Assign, [61]⟩,
    errors := [] }

/-- ... after `expect_peek(Assign)`: the state entering the skip loop. -/
def C2_p2 : Parser :=
  { l := { input := [108,101,116,32,120,32,61,32,53], position := 9, read_position := 10, ch := 0 },
    current_token := ⟨.Assign, [61]⟩,
    peek_token := ⟨.Int, [53]⟩,
    errors := [] }

/-- ... after one skip-loop iteration. -/
def C2_p3 : Parser :=
  { l := { input := [108,101,116,32,120,32,61,32,53], position := 10, read_position := 11, ch := 0 },
    current_token := ⟨.Int, [53]⟩,
    peek_token := ⟨.Eof, [0]⟩,
    errors := [] }

/-- ... after two skip-loop iterations: stuck on Eof for ever. -/
def C2_p4 : Parser :=
  { l := { input := [108,101,116,32,120,32,61,32,53], position := 11, read_position := 12, ch := 0 },
    current_token := ⟨.Eof, [0]⟩,
    peek_token := ⟨.Eof, [0]⟩,
    errors := [] }

theorem C2_expect1 : C2_p0.expect_peek .Ident = some (true, C2_p1) := by decide

theorem C2_expect2 : C2_p1.expect_peek .Assign = some (true, C2_p2) := by decide

theorem C2_skip (f : Nat) : skip_to_semicolon f C2_p2 = .fuelOut := by
  match f with
  | 0 => decide
  | 1 => decide
  | (g+2) =>
    show skip_to_semicolon ((g+1)+1) C2_p2 = .fuelOut
    rw [skip_step (g+1) C2_p2 C2_p3 (by decide) (by decide)]
    rw [skip_step g C2_p3 C2_p4 (by decide) (by decide)]
    exact skip_stuck g C2_p4 (by decide) rfl (by decide) rfl

theorem C2_let (f : Nat) : C2_p0.parse_let_statement f = .fuelOut := by
  unfold Parser.parse_let_statement
  simp only [C2_expect1, C2_expect2, C2_skip f]

theorem C2_loop (f : Nat) : parse_program_loop (f+1) C2_p0 [] = .fuelOut := by
  have hstmt : C2_p0.parse_statement f = .fuelOut := C2_let f
  unfold parse_program_loop
  rw [show C2_p0.cur_token_is .Eof = false from by decide]
  simp only [Bool.false_eq_true, if_false, hstmt]

/-! ### The identifier and illegal-byte arms of the lexer -/

theorem is_letter_bounds (c : Nat) (hl : is_letter c = true) : 65 ≤ c ∧ c ≤ 122 := by
  have h : (97 ≤ c ∧ c ≤ 122) ∨ (65 ≤ c ∧ c ≤ 90) ∨ c = 95 := by
    simpa [is_letter] using hl
  rcases h with h | h | h <;> omega

theorem token_for_letter (s : Lexer) (hl : is_letter s.ch = true) :
    s.token_for = some (Token.new_from_str (Token.lookup_ident s.read_identifier.1)
      s.read_identifier.1, s.read_identifier.2) := by
  obtain ⟨hlo, hhi⟩ := is_letter_bounds s.ch hl
  unfold Lexer.token_for
  -- the fifteen byte-comparison arms are all refuted by 65 ≤ ch ≤ 122
  repeat rw [if_neg (by omega)]
  rw [if_pos hl]

/-- The byte values having their own arm in `next_token`'s match
(operators, delimiters and the end-of-input sentinel 0). -/
def recognized_bytes : List Nat := [61, 33, 59, 40, 41, 44, 43, 123, 125, 45, 47, 42, 60, 62, 0]

theorem token_for_unrecognized (s : Lexer)
    (hrec : s.ch ∉ recognized_bytes)
    (hl : is_letter s.ch = false)
    (hd : is_digit s.ch = false) :
    s.token_for = if s.ch < 128
      then some (⟨.Illegal, [s.ch]⟩, s.read_char)
      else none := by
  have hne : ∀ b ∈ recognized_bytes, ¬ s.ch = b := by
    intro b hb h
    exact hrec (h ▸ hb)
  unfold Lexer.token_for
  rw [if_neg (hne 61 (by decide)), if_neg (hne 33 (by decide)), if_neg (hne 59 (by decide)),
      if_neg (hne 40 (by decide)), if_neg (hne 41 (by decide)), if_neg (hne 44 (by decide)),
      if_neg (hne 43 (by decide)), if_neg (hne 123 (by decide)), if_neg (hne 125 (by decide)),
      if_neg (hne 45 (by decide)), if_neg (hne 47 (by decide)), if_neg (hne 42 (by decide)),
      if_neg (hne 60 (by decide)), if_neg (hne 62 (by decide)), if_neg (hne 0 (by decide)),
      if_neg (show ¬ is_letter s.ch = true by simp [hl]),
      if_neg (show ¬ is_digit s.ch = true by simp [hd])]
  unfold Token.new_from_byte
  by_cases hc : s.ch < 128
  · rw [if_pos hc, if_pos hc]
    rfl
  · rw [if_neg hc, if_neg hc]
    rfl

/-! ## The claims -/

/-- Claim C1.  The claim states that parse_program never panics on malformed
input, in particular on the source "!;" where the prefix operator is
followed by a token with no prefix parse function.  The code contradicts
this: on "!;" the `unwrap` inside parse_prefix_expression is reached with a
`None` operand (after the "no prefix parse function" error has been
recorded) and the parse panics instead of returning a Program. -/
theorem claim_C1 : parseSource 10 (strBytes "!;") = .panicked := by decide

/-- Claim C2.  The claim states that parsing every finite source terminates,
in particular "let x = 5" (a let statement not terminated by a semicolon).
The code contradicts this: the skip loop of parse_let_statement tests only
for Semicolon and never for Eof, and at end of input the lexer returns Eof
tokens for ever, so the loop never exits — for every fuel the fueled model
reports fuel exhaustion. -/
theorem claim_C2 (fuel : Nat) : parseSource fuel (strBytes "let x = 5") = .fuelOut := by
  match fuel with
  | 0 => decide
  | (f+1) =>
    have h : parseSource (f+1) (strBytes "let x = 5") = parse_program_loop (f+1) C2_p0 [] := by
      unfold parseSource
      rw [show Parser.new (Lexer.new (strBytes "let x = 5")) = some C2_p0 from by decide]
      rfl
    rw [h]
    exact C2_loop f

/-- Claim C3, counterexample: once the lexer reaches end of input, the
literal of the returned end-of-input token is the one-byte string [0]
("\0"), not the empty string as claimed. -/
theorem claim_C3_cex :
    (Lexer.new (strBytes "")).next_token.map (fun r => r.1.literal) = some [0] ∧
    (Lexer.new (strBytes "")).next_token.map (fun r => r.1.literal) ≠ some (strBytes "") := by
  decide

/-- Claim C3, amended: once the lexer has reached the end of the input
(cursor at or past the input length, sentinel byte loaded), next_token
returns the end-of-input token whose literal is the one-byte string "\0"
(byte 0), and every subsequent call returns the same token. -/
theorem claim_C3 (l : Lexer) (n : Nat) (h1 : l.input.length ≤ l.read_position)
    (h2 : l.ch = 0) : nthToken l n = some ⟨.Eof, [0]⟩ :=
  nthToken_atEnd n l h1 h2

theorem claim_C3_witness :
    nthToken (Lexer.new (strBytes "")) 3 = some ⟨.Eof, [0]⟩ :=
  claim_C3 (Lexer.new (strBytes "")) 3 (by decide) (by decide)

/-- Claim C4, counterexample: on the input "a1" the lexer does not consume
the digit into the identifier: the first token is the identifier "a", not
"a1" (is_letter accepts letters and underscore only, never digits). -/
theorem claim_C4_cex :
    (Lexer.new (strBytes "a1")).next_token.map Prod.fst = some ⟨.Ident, strBytes "a"⟩ ∧
    (Lexer.new (strBytes "a1")).next_token.map Prod.fst ≠ some ⟨.Ident, strBytes "a1"⟩ := by
  decide

/-- Claim C4, amended: at a byte of the letter/underscore class, next_token
consumes the maximal run of letter/underscore-class bytes (digits are not
part of this class) as one identifier literal and resolves its kind via
keyword lookup. -/
theorem claim_C4 (l : Lexer) (hwf : WF l) (hl : is_letter l.ch = true) :
    l.next_token = some (Token.new_from_str
        (Token.lookup_ident ((l.input.drop l.position).takeWhile is_letter))
        ((l.input.drop l.position).takeWhile is_letter),
      lexWhile is_letter l) := by
  have hws : is_whitespace_byte l.ch = false := by
    obtain ⟨hlo, hhi⟩ := is_letter_bounds l.ch hl
    simp [is_whitespace_byte]
    omega
  unfold Lexer.next_token
  rw [skip_whitespace_id l hws, token_for_letter l hl, read_identifier_spec l hwf]

theorem claim_C4_witness :
    (Lexer.new (strBytes "foo1")).next_token =
      some (⟨.Ident, strBytes "foo"⟩, lexWhile is_letter (Lexer.new (strBytes "foo1"))) :=
  claim_C4 (Lexer.new (strBytes "foo1")) (by decide) (by decide)

/-- Claim C5, counterexample: on the two-byte UTF-8 input "é" (bytes
195, 169) the lexer does not produce an Illegal token: the single-byte
UTF-8 conversion inside Token::new_from_byte fails on byte 195 and the
lexer panics. -/
theorem claim_C5_cex : (Lexer.new [195, 169]).next_token = none := by decide

/-- Claim C5, amended: a non-whitespace byte that is not a recognized
operator/delimiter/sentinel byte, not a letter/underscore and not a digit
produces an Illegal token carrying that single byte as its literal when the
byte is ASCII (below 0x80); for bytes 0x80 and above the lexer panics in
Token::new_from_byte instead. -/
theorem claim_C5 (l : Lexer)
    (hws : is_whitespace_byte l.ch = false)
    (hrec : l.ch ∉ recognized_bytes)
    (hl : is_letter l.ch = false)
    (hd : is_digit l.ch = false) :
    l.next_token = if l.ch < 128
      then some (⟨.Illegal, [l.ch]⟩, l.read_char)
      else none := by
  unfold Lexer.next_token
  rw [skip_whitespace_id l hws, token_for_unrecognized l hrec hl hd]

theorem claim_C5_witness :
    (Lexer.new (strBytes "@")).next_token =
      some (⟨.Illegal, strBytes "@"⟩, (Lexer.new (strBytes "@")).read_char) :=
  claim_C5 (Lexer.new (strBytes "@")) (by decide) (by decide) (by decide) (by decide)

/-- Claim C6: "==" and "!=" are lexed as single two-character tokens (Eq,
NotEq); "=" not followed by "=" as the single-character Assign token, and
"!" not followed by "=" as the single-character Bang token — at every lexer
position. -/
theorem claim_C6 (l : Lexer) :
    (l.ch = 61 → l.peek_char = 61 →
        l.next_token = some (⟨.Eq, [61, 61]⟩, l.read_char.read_char)) ∧
    (l.ch = 61 → l.peek_char ≠ 61 →
        l.next_token = some (⟨.Assign, [61]⟩, l.read_char)) ∧
    (l.ch = 33 → l.peek_char = 61 →
        l.next_token = some (⟨.NotEq, [33, 61]⟩, l.read_char.read_char)) ∧
    (l.ch = 33 → l.peek_char ≠ 61 →
        l.next_token = some (⟨.Bang, [33]⟩, l.read_char)) := by
  have hrc : l.read_char.ch = l.peek_char := rfl
  refine ⟨fun h hp => ?_, fun h hp => ?_, fun h hp => ?_, fun h hp => ?_⟩ <;>
    (unfold Lexer.next_token
     rw [skip_whitespace_id l (by rw [h]; rfl)]
     simp [Lexer.token_for, Token.new_from_str, Token.new_from_byte, h, hp, hrc])

theorem claim_C6_witness :
    (Lexer.new (strBytes "==")).next_token =
      some (⟨.Eq, [61, 61]⟩, (Lexer.new (strBytes "==")).read_char.read_char) ∧
    (Lexer.new (strBytes "=5")).next_token =
      some (⟨.Assign, [61]⟩, (Lexer.new (strBytes "=5")).read_char) ∧
    (Lexer.new (strBytes "!=")).next_token =
      some (⟨.NotEq, [33, 61]⟩, (Lexer.new (strBytes "!=")).read_char.read_char) ∧
    (Lexer.new (strBytes "!5")).next_token =
      some (⟨.Bang, [33]⟩, (Lexer.new (strBytes "!5")).read_char) :=
  ⟨(claim_C6 _).1 (by decide) (by decide),
   (claim_C6 _).2.1 (by decide) (by decide),
   (claim_C6 _).2.2.1 (by decide) (by decide),
   (claim_C6 _).2.2.2 (by decide) (by decide)⟩

/-- Claim C7: on the malformed source "let x 5;" (missing `=`),
parse_program does not panic: it completes, no Let statement is produced
for that statement, and the error list is non-empty with its first entry
naming the expected Assign token kind. -/
theorem claim_C7 :
    (parseSource 20 (strBytes "let x 5;")).isOk = true ∧
    firstParseError (parseSource 20 (strBytes "let x 5;")) =
      some (strBytes "Expected next token to be Assign, got Int instead.") ∧
    strBytes "Assign" <:+: strBytes "Expected next token to be Assign, got Int instead." :=
  ⟨by decide, by decide, by decide⟩

/-- Claim C8: an integer-literal token whose literal does not convert to a
64-bit signed integer yields a "Could not parse ... as integer" error
appended to the error list together with an IntegerLiteral node carrying an
absent value; the statement is still produced (shown end-to-end on the
out-of-range literal 2^63). -/
theorem claim_C8 :
    (∀ (fuel : Nat) (p : Parser),
        p.current_token.token_type = .Int →
        parse_i64 p.current_token.literal = none →
        parse_expression fuel p LOWEST =
          .ok (some (Expression.IntegerLiteral p.current_token none),
               { p with errors := p.errors ++
                   [strBytes "Could not parse " ++ p.current_token.literal ++
                    strBytes " as integer"] })) ∧
    parsedStmts (parseSource 20 (strBytes "9223372036854775808;")) =
      some [Statement.Expression ⟨.Int, strBytes "9223372036854775808"⟩
        (some (Expression.IntegerLiteral ⟨.Int, strBytes "9223372036854775808"⟩ none))] ∧
    parsedErrors (parseSource 20 (strBytes "9223372036854775808;")) =
      some [strBytes "Could not parse 9223372036854775808 as integer"] := by
  refine ⟨?_, by decide, by decide⟩
  intro fuel p ht hv
  match fuel with
  | 0 =>
    rw [parse_expression.eq_1]
    simp only [ht, Parser.parse_integer_literal, hv]
  | (f+1) =>
    rw [parse_expression.eq_2]
    simp only [ht, Parser.parse_integer_literal, hv]

/-- A parser state holding an out-of-range integer-literal current token. -/
def C8_p : Parser :=
  { l := Lexer.new []
    current_token := ⟨.Int, strBytes "9223372036854775808"⟩
    peek_token := ⟨.Eof, [0]⟩
    errors := [] }

theorem claim_C8_witness :
    parse_expression 5 C8_p LOWEST =
      .ok (some (Expression.IntegerLiteral C8_p.current_token none),
           { C8_p with errors := C8_p.errors ++
               [strBytes "Could not parse " ++ C8_p.current_token.literal ++
                strBytes " as integer"] }) :=
  claim_C8.1 5 C8_p (by decide) (by decide)

/-- Claim C9, counterexample: a call to next_token on the UTF-8 input "√"
(bytes 226, 136, 154) returns no token at all (it panics on byte 226); and
on the input "\0=" (a NUL byte then "="), the call after the one that
returned an end-of-input token returns an Assign token, not end-of-input —
next_token is not idempotent after the first Eof token. -/
theorem claim_C9_cex :
    (Lexer.new [226, 136, 154]).next_token = none ∧
    (nthToken (Lexer.new [0, 61]) 0).map Token.token_type = some .Eof ∧
    (nthToken (Lexer.new [0, 61]) 1).map Token.token_type = some .Assign ∧
    (nthToken (Lexer.new [0, 61]) 1).map Token.token_type ≠ some .Eof := by
  decide

/-- Claim C9, amended: on a well-formed lexer state over all-ASCII input,
each call to next_token returns exactly one token; and once the cursor is
at or past the end of the input with the sentinel loaded, every further
call returns the end-of-input token again. -/
theorem claim_C9 (l : Lexer) (hwf : WF l) (hascii : ∀ b ∈ l.input, b < 128) :
    l.next_token.isSome = true ∧
    (l.input.length ≤ l.read_position → l.ch = 0 →
      ∀ n, nthToken l n = some ⟨.Eof, [0]⟩) := by
  constructor
  · have hin : l.skip_whitespace.input = l.input := lexWhile_input _ _
    exact next_token_isSome l
      (WF_ch_lt _ (lexWhile_WF _ _ hwf) (by rw [hin]; exact hascii))
  · intro h1 h2 n
    exact nthToken_atEnd n l h1 h2

theorem claim_C9_witness :
    (Lexer.new [0]).next_token.isSome = true ∧
    nthToken (Lexer.new [0]) 2 = some ⟨.Eof, [0]⟩ := by
  have h := claim_C9 (Lexer.new [0]) (by decide) (by decide)
  exact ⟨h.1, h.2 (by decide) (by decide) 2⟩

/-- Claim C10: on the empty source, the first token handed to the parser is
already end-of-input, so parse_program returns (even with zero loop fuel) a
Program with no statements and an empty error list. -/
theorem claim_C10 :
    (Lexer.new (strBytes "")).next_token.map (fun r => r.1.token_type) = some .Eof ∧
    parsedStmts (parseSource 0 (strBytes "")) = some [] ∧
    parsedErrors (parseSource 0 (strBytes "")) = some [] := by
  decide
